import Mathlib

/-!
# The embeddable chat widget (`callpilot/app/static/chat-widget.js`)

A shallow embedding of the widget's runtime: the closure variables
(`config`, `history`, `isOpen`, `isLoaded`), the part of the DOM the handlers
read and write (header text, children of the message list, input value,
visibility of the panel) and the network requests issued so far.

The browser runs the script on one thread: every handler body runs to
completion before the next event is delivered.  Each handler is therefore a
function `State → State`, and an execution is a list of events folded over
`step`.  A pending `fetch` is an id in `State.inflight`; the event
`Event.settle id o` delivers its outcome and runs the promise chain that the
source attached to it.

Not modelled: style injection, focus and scroll position, the text form of
`JSON.stringify` (a request records the value handed to it), and the base URL
(a constant prefix of both endpoints).

Exceptions: the only statements of the handlers that can throw are the read
`data.reply` on `null`, which is modelled, and the assignments to
`textContent`, which convert the value to a string and throw when that value
is an object with an own `toString` property (or an array that holds one).
The assignments are modelled for values whose conversion succeeds; the
theorems about texts that come from the backend's config are stated for
config bodies whose `name` and `greeting_message` are primitive or absent, see
`plainConfig`.
-/

namespace ChatWidget

/-! ## JavaScript values -/

/-- Values that `JSON.parse` (here: `Response.json()`) can produce.  The widget
never computes with numbers, it only tests them for truthiness; `num n` stands
for an integral number. -/
inductive Json where
  | null
  | bool (b : Bool)
  | num (n : Int)
  | str (s : String)
  | arr (items : List Json)
  | obj (fields : List (String × Json))

/-- The values a widget variable can hold: a parsed JSON value, or `undefined`
(the result of reading a property that is not there). -/
inductive JsVal where
  | undefined
  | json (j : Json)

/-- JavaScript truthiness of a parsed JSON value (`ToBoolean`). -/
def Json.truthy : Json → Bool
  | .null => false
  | .bool b => b
  | .num n => n != 0
  | .str s => s != ""
  | .arr _ => true
  | .obj _ => true

/-- JavaScript truthiness, `undefined` included. -/
def JsVal.truthy : JsVal → Bool
  | .undefined => false
  | .json j => j.truthy

/-- Property read `v.key` for the three keys the widget reads (`name`,
`greeting_message`, `reply`), none of which exists on a built-in prototype.
`none` is the `TypeError` thrown when `v` is `null`; an object yields its own
property or `undefined`; every other value yields `undefined`. -/
def Json.get (key : String) : Json → Option JsVal
  | .null => none
  | .obj fields =>
    match fields.lookup key with
    | some v => some (.json v)
    | none => some .undefined
  | _ => some .undefined

/-- The characters `String.prototype.trim` strips: ECMAScript `WhiteSpace`
(TAB, VT, FF, ZWNBSP and the Unicode space separators) and `LineTerminator`
(LF, CR, LS, PS). -/
def isJsWhiteSpace (c : Char) : Bool :=
  let n := c.toNat
  n == 0x09 || n == 0x0A || n == 0x0B || n == 0x0C || n == 0x0D || n == 0x20 ||
  n == 0xA0 || n == 0x1680 || (0x2000 ≤ n && n ≤ 0x200A) || n == 0x2028 ||
  n == 0x2029 || n == 0x202F || n == 0x205F || n == 0x3000 || n == 0xFEFF

/-- Strip the white space at both ends of a list of characters. -/
def trimChars (cs : List Char) : List Char :=
  ((cs.dropWhile isJsWhiteSpace).reverse.dropWhile isJsWhiteSpace).reverse

/-- The method `String.prototype.trim`. -/
def jsTrim (s : String) : String := ⟨trimChars s.data⟩

/-! ## Data model -/

/-- The `role` of a history entry. -/
inductive Role where
  | user
  | assistant

/-- One entry of `history`: the object literal with fields `role` and `content`.
The content of an assistant entry is whatever `data.reply` evaluated to. -/
structure Turn where
  role : Role
  content : JsVal

/-- A child of the message list `#wwa-chat-messages`: a message bubble (the
value assigned to its `textContent`, and whether it has class `user` or `bot`)
or the typing indicator `#wwa-typing-el`. -/
inductive Node where
  | msg (text : JsVal) (isUser : Bool)
  | typing

/-- A network request, recorded when `fetch` is called.  For the message
endpoint the three fields are the object handed to `JSON.stringify` at that
moment (`business_id` before `parseInt`). -/
inductive Request where
  | config (business_id : String)
  | message (business_id : String) (message : String) (conversation_history : List Turn)

/-- How a `fetch(...).then(r => r.json())` chain settles: the fetch rejects
(network error), or it resolves with a response of some HTTP status whose body
either fails to parse (`body = none`) or parses to a JSON value. -/
inductive Outcome where
  | rejected
  | responded (status : Nat) (body : Option Json)

/-- The error values that reach a `.catch` handler. -/
inductive JsError where
  | network
  | parse
  | type

/-- The closure variables of the script, the DOM state its handlers touch, and
the requests issued so far (`inflight` lists the ids, i.e. the indices into
`requests`, of the fetches that have not settled yet). -/
structure State where
  businessId : String
  config : Json
  history : List Turn
  isOpen : Bool
  isLoaded : Bool
  hidden : Bool
  headerText : Json
  messages : List Node
  inputValue : String
  requests : List Request
  inflight : List Nat

/-- The fixed greeting used when the configuration offers none. -/
def defaultGreeting : String := "Hi! How can I help you today?"

/-- The configuration substituted when the config fetch fails. -/
def defaultConfig : Json :=
  .obj [("name", .str "Us"), ("greeting_message", .str defaultGreeting)]

/-- The fixed text handed to the continuation when a message exchange fails. -/
def apology : String := "Sorry, I had trouble connecting. Please try again or call us."

/-! ## The functions of the script -/

/-- Record a call of `fetch`: the request gets the next id and is in flight. -/
def issue (r : Request) (s : State) : State :=
  { s with requests := s.requests ++ [r], inflight := s.inflight ++ [s.requests.length] }

/-- The synchronous part of `loadConfig(cb)`: with a truthy `config` the
continuation runs at once, otherwise the config endpoint is fetched. -/
def loadConfig (cb : State → State) (s : State) : State :=
  if s.config.truthy then cb s else issue (.config s.businessId) s

/-- The second `.then` handler of `loadConfig`. -/
def loadConfigThen (cb : State → State) (data : Json) (s : State) : State :=
  cb { s with config := data, isLoaded := true }

/-- The `.catch` handler of `loadConfig`. -/
def loadConfigCatch (cb : State → State) (s : State) : State :=
  cb { s with config := defaultConfig, isLoaded := true }

/-- The promise chain of `loadConfig` run on the outcome of its fetch. -/
def loadConfigSettle (cb : State → State) (o : Outcome) (s : State) : State :=
  match o with
  | .rejected => loadConfigCatch cb s
  | .responded _ none => loadConfigCatch cb s
  | .responded _ (some data) => loadConfigThen cb data s

/-- The synchronous part of `sendMessage(msg, cb)`: push the user turn, then
fetch the message endpoint with the history as it is now.  The continuation is
used by the promise chain only, see `sendMessageSettle`. -/
def sendMessage (msg : String) (s : State) : State :=
  let s1 := { s with history := s.history ++ [⟨.user, .json (.str msg)⟩] }
  issue (.message s1.businessId msg s1.history) s1

/-- The `.catch` handler of `sendMessage`. -/
def sendMessageCatch (cb : Option JsError → JsVal → State → State) (err : JsError)
    (s : State) : State :=
  cb (some err) (.json (.str apology)) s

/-- The second `.then` handler of `sendMessage`.  Reading `data.reply` comes
first: on `null` it throws and control passes to the `.catch` handler with
nothing pushed. -/
def sendMessageThen (cb : Option JsError → JsVal → State → State) (data : Json)
    (s : State) : State :=
  match data.get "reply" with
  | none => sendMessageCatch cb .type s
  | some reply => cb none reply { s with history := s.history ++ [⟨.assistant, reply⟩] }

/-- The promise chain of `sendMessage` run on the outcome of its fetch. -/
def sendMessageSettle (cb : Option JsError → JsVal → State → State) (o : Outcome)
    (s : State) : State :=
  match o with
  | .rejected => sendMessageCatch cb .network s
  | .responded _ none => sendMessageCatch cb .parse s
  | .responded _ (some data) => sendMessageThen cb data s

/-- The helper `addMsg(text, isUser)`, for a `text` that converts to a string
(a primitive or `undefined`); the bubble records the value assigned to
`textContent`. -/
def addMsg (text : JsVal) (isUser : Bool) (s : State) : State :=
  { s with messages := s.messages ++ [.msg text isUser] }

/-- The helper `addTyping()`. -/
def addTyping (s : State) : State :=
  { s with messages := s.messages ++ [.typing] }

/-- Remove the first typing indicator of a list of nodes, if there is one
(`document.getElementById` returns the first element with the id). -/
def dropFirstTyping : List Node → List Node
  | [] => []
  | .typing :: rest => rest
  | n :: rest => n :: dropFirstTyping rest

/-- The helper `removeTyping()`. -/
def removeTyping (s : State) : State :=
  { s with messages := dropFirstTyping s.messages }

/-- The text `showGreeting` chooses. -/
def greetingText (config : Json) : JsVal :=
  if config.truthy then
    match config.get "greeting_message" with
    | some g => if g.truthy then g else .json (.str defaultGreeting)
    | none => .json (.str defaultGreeting)
  else .json (.str defaultGreeting)

/-- The helper `showGreeting()`. -/
def showGreeting (s : State) : State :=
  addMsg (greetingText s.config) false s

/-- The handler `btn.onclick`. -/
def btnOnclick (s : State) : State :=
  let s1 := { s with isOpen := !s.isOpen }
  let s2 := { s1 with hidden := !s1.isOpen }
  if s2.isOpen && s2.messages.length == 0 then showGreeting s2 else s2

/-- The continuation `doSend` passes to `sendMessage`. -/
def doSendCb (_err : Option JsError) (reply : JsVal) (s : State) : State :=
  addMsg reply false (removeTyping s)

/-- The function `doSend()`. -/
def doSend (s : State) : State :=
  let text := jsTrim s.inputValue
  if text = "" then s
  else sendMessage text (addTyping (addMsg (.json (.str text)) true { s with inputValue := "" }))

/-- The continuation `createWidget` passes to `loadConfig`, for a config whose
`name` converts to a string (see `plainConfig`); the header records the value
assigned to `textContent`. -/
def headerCb (s : State) : State :=
  if s.config.truthy then
    match s.config.get "name" with
    | some (.json j) => if j.truthy then { s with headerText := j } else s
    | _ => s
  else s

/-- The closure variables as initialised when the script starts, for a script
tag that carries the business id `businessId`; no DOM has been built. -/
def init (businessId : String) : State where
  businessId := businessId
  config := .null
  history := []
  isOpen := false
  isLoaded := false
  hidden := true
  headerText := .str ""
  messages := []
  inputValue := ""
  requests := []
  inflight := []

/-- The function `createWidget()`: build the panel (hidden, header from the
config if there is one, empty message list, empty input), then load the
config. -/
def createWidget (s : State) : State :=
  let header : Json :=
    if s.config.truthy then
      match s.config.get "name" with
      | some (.json j) => j
      | _ => .str "undefined"
    else .str "Chat"
  loadConfig headerCb { s with hidden := true, headerText := header, messages := [], inputValue := "" }

/-! ## Executions -/

/-- What can happen to the widget: the launcher button is clicked, the user
edits the input field, presses Enter in it, some code invokes `loadConfig`
(with the continuation of `createWidget`), or a pending fetch settles. -/
inductive Event where
  | click
  | input (value : String)
  | enter
  | loadConfig
  | settle (id : Nat) (o : Outcome)

/-- Deliver the outcome of the fetch `id`, if it is in flight: run the promise
chain of the function that issued it. -/
def settle (id : Nat) (o : Outcome) (s : State) : State :=
  if id ∈ s.inflight then
    match s.requests[id]? with
    | some (.config _) => loadConfigSettle headerCb o { s with inflight := s.inflight.erase id }
    | some (.message _ _ _) => sendMessageSettle doSendCb o { s with inflight := s.inflight.erase id }
    | none => s
  else s

/-- One event. -/
def step (s : State) : Event → State
  | .click => btnOnclick s
  | .input v => { s with inputValue := v }
  | .enter => doSend s
  | .loadConfig => loadConfig headerCb s
  | .settle id o => settle id o s

/-- A sequence of events, left to right. -/
def run (s : State) (es : List Event) : State := es.foldl step s

/-- The widget right after the script has run on a page that is already
loaded. -/
def start (businessId : String) : State := createWidget (init businessId)

/-- Number of config requests issued so far. -/
def configRequests (s : State) : Nat :=
  (s.requests.filter fun r => match r with | .config _ => true | _ => false).length

/-- Number of typing indicators shown. -/
def typingCount (ns : List Node) : Nat :=
  (ns.filter fun n => match n with | .typing => true | _ => false).length

/-- The `pending` flag of the UI state: a typing indicator is displayed. -/
def pending (s : State) : Bool := typingCount s.messages != 0

/-- A primitive JSON value: `null`, a boolean, a number or a string.  Its
conversion to a string cannot throw. -/
def Json.isPrimitive : Json → Bool
  | .arr _ => false
  | .obj _ => false
  | _ => true

/-- The property `key` of `data` is absent or primitive (on `null`, which is
falsy, the widget never reads a property). -/
def plainField (key : String) (data : Json) : Bool :=
  match data.get key with
  | some (.json j) => j.isPrimitive
  | _ => true

/-- The config bodies on which the assignments of `config.name` and
`config.greeting_message` to `textContent` run to completion: both are
primitive or absent.  The record `{ name: string, greeting_message: string }`
of the config endpoint is of this kind, also with fields missing or `null`. -/
def plainConfig (data : Json) : Bool :=
  plainField "name" data && plainField "greeting_message" data

/-- An event that delivers no config body other than a plain one. -/
def plainEvent : Event → Bool
  | .settle _ (.responded _ (some data)) => plainConfig data
  | _ => true


/-! ## Basic facts about the handlers -/

/-- Trimming a list made of white space only leaves nothing. -/
theorem trimChars_blank (cs : List Char) (h : ∀ c ∈ cs, isJsWhiteSpace c = true) :
    trimChars cs = [] := by
  have h1 : cs.dropWhile isJsWhiteSpace = [] := by
    rw [List.dropWhile_eq_nil_iff]; exact h
  simp [trimChars, h1]

/-- The state after `doSend` when the trimmed input is not empty. -/
theorem doSend_accept (s : State) (h : jsTrim s.inputValue ≠ "") :
    doSend s =
      { s with
        inputValue := ""
        messages := s.messages ++ [.msg (.json (.str (jsTrim s.inputValue))) true, .typing]
        history := s.history ++ [⟨.user, .json (.str (jsTrim s.inputValue))⟩]
        requests := s.requests ++ [.message s.businessId (jsTrim s.inputValue)
          (s.history ++ [⟨.user, .json (.str (jsTrim s.inputValue))⟩])]
        inflight := s.inflight ++ [s.requests.length] } := by
  simp [doSend, h, sendMessage, issue, addTyping, addMsg]

/-- Settling an in-flight message request runs the chain of `sendMessage`. -/
theorem settle_message (s : State) (id : Nat) (o : Outcome) (b m : String) (h : List Turn)
    (hmem : id ∈ s.inflight) (hreq : s.requests[id]? = some (.message b m h)) :
    settle id o s = sendMessageSettle doSendCb o { s with inflight := s.inflight.erase id } := by
  simp [settle, hmem, hreq]

/-- Settling an in-flight config request runs the chain of `loadConfig`. -/
theorem settle_config (s : State) (id : Nat) (o : Outcome) (b : String)
    (hmem : id ∈ s.inflight) (hreq : s.requests[id]? = some (.config b)) :
    settle id o s = loadConfigSettle headerCb o { s with inflight := s.inflight.erase id } := by
  simp [settle, hmem, hreq]

/-- The continuation of `createWidget` writes the header text at most. -/
theorem headerCb_frame (s : State) : ∃ h, headerCb s = { s with headerText := h } := by
  unfold headerCb
  split
  · split
    · split
      · exact ⟨_, rfl⟩
      · exact ⟨s.headerText, rfl⟩
    · exact ⟨s.headerText, rfl⟩
  · exact ⟨s.headerText, rfl⟩

/-- The chain of `sendMessage` with the continuation of `doSend` writes the log
and the message list at most. -/
theorem sendMessageSettle_frame (o : Outcome) (s : State) :
    ∃ H M, sendMessageSettle doSendCb o s = { s with history := H, messages := M } := by
  cases o with
  | rejected => exact ⟨_, _, rfl⟩
  | responded st body =>
    cases body with
    | none => exact ⟨_, _, rfl⟩
    | some data =>
      simp only [sendMessageSettle, sendMessageThen]
      split
      · exact ⟨_, _, rfl⟩
      · exact ⟨_, _, rfl⟩

/-- The click handler flips `isOpen`, sets `hidden` accordingly and writes the
message list at most. -/
theorem btnOnclick_frame (s : State) :
    ∃ M, btnOnclick s = { s with isOpen := !s.isOpen, hidden := s.isOpen, messages := M } := by
  unfold btnOnclick
  simp only []
  split
  · exact ⟨s.messages ++ [.msg (greetingText s.config) false], by simp [showGreeting, addMsg]⟩
  · exact ⟨s.messages, by simp⟩

/-- Typing indicators of a concatenation. -/
theorem typingCount_append (xs ys : List Node) :
    typingCount (xs ++ ys) = typingCount xs + typingCount ys := by
  simp [typingCount]

/-- Dropping the first typing indicator lowers the count by one (if positive). -/
theorem typingCount_dropFirstTyping (ns : List Node) :
    typingCount (dropFirstTyping ns) = typingCount ns - 1 := by
  induction ns with
  | nil => rfl
  | cons n rest ih =>
    cases n with
    | typing => simp [dropFirstTyping, typingCount]
    | msg t u =>
      simp only [dropFirstTyping]
      simpa [typingCount] using ih

/-- Running a concatenation of event lists. -/
theorem run_append (s : State) (es fs : List Event) :
    run s (es ++ fs) = run (run s es) fs := by
  simp [run, List.foldl_append]

/-- The second of two requests appended to a list sits at index `length + 1`. -/
theorem getElem?_append_two (rs : List Request) (a b : Request) :
    (rs ++ [a, b])[rs.length + 1]? = some b := by
  rw [List.getElem?_append_right (by omega)]
  simp

/-- The first request appended to a list sits at index `length`. -/
theorem getElem?_append_one (rs : List Request) (a : Request) (tail : List Request) :
    (rs ++ a :: tail)[rs.length]? = some a := by
  rw [List.getElem?_append_right (le_refl _)]
  simp

/-- The request issued by an accepted submission. -/
theorem submit_request (t : State) (text : String) (ht : jsTrim text ≠ "") :
    (run t [.input text, .enter]).requests.getLast? =
      some (.message t.businessId (jsTrim text)
        (t.history ++ [⟨.user, .json (.str (jsTrim text))⟩])) := by
  have h1 : jsTrim ({ t with inputValue := text } : State).inputValue ≠ "" := ht
  simp only [run, List.foldl, step]
  rw [doSend_accept _ h1]
  simp

/-! ## Single exchanges -/

/-- C2: the request that `sendMessage(m)` issues is built after the user turn
has been pushed.  Its `message` is `m` and its `conversation_history` is the
log before the call followed by the user turn for `m`, which is the whole log
at the time of the call and ends with that turn. -/
theorem sendMessage_request (s : State) (m : String) :
    (sendMessage m s).requests =
        s.requests ++ [.message s.businessId m (s.history ++ [⟨.user, .json (.str m)⟩])] ∧
      (sendMessage m s).history = s.history ++ [⟨.user, .json (.str m)⟩] ∧
      (sendMessage m s).requests.getLast? =
        some (.message s.businessId m (sendMessage m s).history) ∧
      (sendMessage m s).history.getLast? = some ⟨.user, .json (.str m)⟩ := by
  simp [sendMessage, issue]

/-- C8: when the input is empty or consists of white space only, `doSend`
changes nothing: no turn is pushed, the message list gets neither a bubble nor
a typing indicator, and no request is issued. -/
theorem doSend_blank (s : State) (h : ∀ c ∈ s.inputValue.data, isJsWhiteSpace c = true) :
    doSend s = s ∧ (doSend s).history = s.history ∧ (doSend s).messages = s.messages ∧
      (doSend s).requests = s.requests ∧ (doSend s).inflight = s.inflight := by
  have h0 : jsTrim s.inputValue = "" := by
    simp [jsTrim, trimChars_blank _ h]
  have h1 : doSend s = s := by simp [doSend, h0]
  simp [h1]

/-- An instance of the preceding theorem: blanks, a tab and a line feed. -/
theorem doSend_blank_witness :
    (∀ c ∈ ({ init "42" with inputValue := " \t\n " } : State).inputValue.data,
        isJsWhiteSpace c = true) ∧
      doSend { init "42" with inputValue := " \t\n " } = { init "42" with inputValue := " \t\n " } :=
  ⟨by decide, (doSend_blank { init "42" with inputValue := " \t\n " } (by decide)).1⟩

/-- C1: from any state with log `L`, entering a text whose trimmed form `t` is
not empty, pressing Enter, and then receiving a response whose body has the
string `r` as its `reply`, leaves the log equal to `L` followed by the user turn
for `t` and the assistant turn for `r`; after the submission alone the log is
`L` followed by the user turn. -/
theorem submit_then_reply (s : State) (text r : String) (status : Nat) (data : Json)
    (ht : jsTrim text ≠ "") (hr : data.get "reply" = some (.json (.str r))) :
    (run s [.input text, .enter]).history =
        s.history ++ [⟨.user, .json (.str (jsTrim text))⟩] ∧
      (run s [.input text, .enter,
          .settle s.requests.length (.responded status (some data))]).history =
        s.history ++ [⟨.user, .json (.str (jsTrim text))⟩, ⟨.assistant, .json (.str r)⟩] := by
  have h1 : jsTrim ({ s with inputValue := text } : State).inputValue ≠ "" := ht
  constructor
  · simp [run, step, doSend_accept _ h1]
  · simp only [run, List.foldl, step]
    rw [doSend_accept _ h1]
    rw [settle_message _ _ _ s.businessId (jsTrim text)
      (s.history ++ [⟨.user, .json (.str (jsTrim text))⟩])]
    · simp [sendMessageSettle, sendMessageThen, hr, doSendCb, addMsg, removeTyping]
    · simp
    · simp

/-- An instance of the preceding theorem: the scenario of the first exchange. -/
theorem submit_then_reply_witness :
    jsTrim " hours? " ≠ "" ∧
      Json.get "reply" (.obj [("reply", .str "9-5 Mon-Fri")]) =
        some (.json (.str "9-5 Mon-Fri")) ∧
      (run (start "42") [.input " hours? ", .enter,
          .settle 1 (.responded 200 (some (.obj [("reply", .str "9-5 Mon-Fri")])))]).history =
        [⟨.user, .json (.str "hours?")⟩, ⟨.assistant, .json (.str "9-5 Mon-Fri")⟩] :=
  ⟨by decide, rfl,
    (submit_then_reply (start "42") " hours? " "9-5 Mon-Fri" 200
      (.obj [("reply", .str "9-5 Mon-Fri")]) (by decide) rfl).2⟩

/-- C4: when the exchange started by submitting a text with trimmed form `m`
fails in transport (the fetch rejects, or the body does not parse), the
completion removes a typing indicator, so that as many are displayed as before
the submission (none, if none was displayed), appends the fixed apology as a
bot message, and leaves the log at `L ++ [user m]`; the history of the next
request is `L ++ [user m, user m2]`, without the apology. -/
theorem submit_then_transport_failure (s : State) (text : String) (o : Outcome)
    (ht : jsTrim text ≠ "") (ho : o = .rejected ∨ ∃ status, o = .responded status none) :
    (step (run s [.input text, .enter]) (.settle s.requests.length o)).messages =
        dropFirstTyping (run s [.input text, .enter]).messages ++
          [.msg (.json (.str "Sorry, I had trouble connecting. Please try again or call us."))
            false] ∧
      typingCount (run s [.input text, .enter]).messages = typingCount s.messages + 1 ∧
      typingCount (step (run s [.input text, .enter]) (.settle s.requests.length o)).messages =
        typingCount s.messages ∧
      (pending s = false →
        pending (step (run s [.input text, .enter]) (.settle s.requests.length o)) = false) ∧
      (step (run s [.input text, .enter]) (.settle s.requests.length o)).history =
        s.history ++ [⟨.user, .json (.str (jsTrim text))⟩] ∧
      ∀ text2, jsTrim text2 ≠ "" →
        (run (step (run s [.input text, .enter]) (.settle s.requests.length o))
            [.input text2, .enter]).requests.getLast? =
          some (.message s.businessId (jsTrim text2)
            (s.history ++ [⟨.user, .json (.str (jsTrim text))⟩,
              ⟨.user, .json (.str (jsTrim text2))⟩])) := by
  have h1 : jsTrim ({ s with inputValue := text } : State).inputValue ≠ "" := ht
  have hrun : run s [.input text, .enter] = doSend { s with inputValue := text } := rfl
  obtain ⟨err, hset⟩ : ∃ err, step (doSend { s with inputValue := text })
      (.settle s.requests.length o) =
      sendMessageCatch doSendCb err
        { doSend { s with inputValue := text } with
          inflight := (s.inflight ++ [s.requests.length]).erase s.requests.length } := by
    simp only [step]
    rw [settle_message _ _ _ s.businessId (jsTrim text)
      (s.history ++ [⟨.user, .json (.str (jsTrim text))⟩])]
    · rcases ho with rfl | ⟨st, rfl⟩
      · exact ⟨.network, by simp [sendMessageSettle, doSend_accept _ h1]⟩
      · exact ⟨.parse, by simp [sendMessageSettle, doSend_accept _ h1]⟩
    · simp [doSend_accept _ h1]
    · simp [doSend_accept _ h1]
  rw [hrun, hset]
  have hcount : typingCount (doSend { s with inputValue := text }).messages =
      typingCount s.messages + 1 := by
    rw [doSend_accept _ h1]; simp [typingCount]
  have hcount2 : typingCount (sendMessageCatch doSendCb err
        { doSend { s with inputValue := text } with
          inflight := (s.inflight ++ [s.requests.length]).erase s.requests.length }).messages =
      typingCount s.messages := by
    simp only [sendMessageCatch, doSendCb, addMsg, removeTyping, typingCount_append,
      typingCount_dropFirstTyping, hcount]
    simp [typingCount]
  refine ⟨?_, hcount, hcount2, ?_, ?_, ?_⟩
  · simp [sendMessageCatch, doSendCb, addMsg, removeTyping, apology]
  · intro hp
    simp only [pending, hcount2] at hp ⊢
    exact hp
  · simp [sendMessageCatch, doSendCb, addMsg, removeTyping, doSend_accept _ h1]
  · intro text2 ht2
    simp only [run, List.foldl, step]
    rw [doSend_accept _ ht2]
    simp [sendMessageCatch, doSendCb, addMsg, removeTyping, doSend_accept _ h1]

/-- An instance of the preceding theorem: the first fetch rejects. -/
theorem submit_then_transport_failure_witness :
    jsTrim "hours?" ≠ "" ∧
      (Outcome.rejected = .rejected ∨ ∃ status, Outcome.rejected = .responded status none) ∧
      (step (run (start "42") [.input "hours?", .enter]) (.settle 1 .rejected)).messages =
        dropFirstTyping (run (start "42") [.input "hours?", .enter]).messages ++
          [.msg (.json (.str "Sorry, I had trouble connecting. Please try again or call us."))
            false] ∧
      (step (run (start "42") [.input "hours?", .enter]) (.settle 1 .rejected)).history =
        [⟨.user, .json (.str "hours?")⟩] :=
  ⟨by decide, Or.inl rfl,
    (submit_then_transport_failure (start "42") "hours?" .rejected (by decide) (Or.inl rfl)).1,
    (submit_then_transport_failure (start "42") "hours?" .rejected (by decide)
      (Or.inl rfl)).2.2.2.2.1⟩

/-- C5, refuted as stated: a response with status 500 whose body parses to an
object without a `reply` property is handled as a success.  An assistant turn
with content `undefined` is pushed, and the bubble shown is that value, not the
apology. -/
theorem parsed_error_body_is_not_fallback :
    (step (run (start "42") [.input "hours?", .enter])
        (.settle 1 (.responded 500
          (some (.obj [("detail", .str "Internal Server Error")]))))).history =
        [⟨.user, .json (.str "hours?")⟩, ⟨.assistant, .undefined⟩] ∧
      (step (run (start "42") [.input "hours?", .enter])
        (.settle 1 (.responded 500
          (some (.obj [("detail", .str "Internal Server Error")]))))).messages =
        [.msg (.json (.str "hours?")) true, .msg .undefined false] :=
  ⟨rfl, rfl⟩

/-- C5, amended: `sendMessage` takes the fallback path (continuation called
with an error and the fixed apology, on a state whose log is unchanged) when
the fetch rejects, when the body does not parse, and when it parses to `null`.
The status is never inspected: for every response whose body parses to a
non-null value, the value of its `reply` property (`undefined` when there is
none) is pushed as an assistant turn and handed to the continuation with a null
error. -/
theorem sendMessageSettle_paths (cb : Option JsError → JsVal → State → State) (s : State) :
    sendMessageSettle cb .rejected s =
        cb (some .network)
          (.json (.str "Sorry, I had trouble connecting. Please try again or call us.")) s ∧
      (∀ status, sendMessageSettle cb (.responded status none) s =
        cb (some .parse)
          (.json (.str "Sorry, I had trouble connecting. Please try again or call us.")) s) ∧
      (∀ status, sendMessageSettle cb (.responded status (some .null)) s =
        cb (some .type)
          (.json (.str "Sorry, I had trouble connecting. Please try again or call us.")) s) ∧
      (∀ status data, data ≠ .null →
        ∃ reply, data.get "reply" = some reply ∧
          (∀ fields, data = .obj fields →
            reply = (match fields.lookup "reply" with
              | some v => .json v
              | none => .undefined)) ∧
          ((∀ fields, data ≠ .obj fields) → reply = .undefined) ∧
          sendMessageSettle cb (.responded status (some data)) s =
            cb none reply { s with history := s.history ++ [⟨.assistant, reply⟩] }) := by
  refine ⟨rfl, fun _ => rfl, fun _ => rfl, ?_⟩
  intro status data hd
  cases data with
  | null => exact absurd rfl hd
  | obj fields =>
    cases hl : fields.lookup "reply" with
    | none =>
      refine ⟨.undefined, by simp [Json.get, hl], ?_, fun h => absurd rfl (h fields),
        by simp [sendMessageSettle, sendMessageThen, Json.get, hl]⟩
      intro f hf; cases hf; simp [hl]
    | some v =>
      refine ⟨.json v, by simp [Json.get, hl], ?_, fun h => absurd rfl (h fields),
        by simp [sendMessageSettle, sendMessageThen, Json.get, hl]⟩
      intro f hf; cases hf; simp [hl]
  | bool b => exact ⟨.undefined, rfl, fun _ hf => Json.noConfusion hf, fun _ => rfl, rfl⟩
  | num n => exact ⟨.undefined, rfl, fun _ hf => Json.noConfusion hf, fun _ => rfl, rfl⟩
  | str t => exact ⟨.undefined, rfl, fun _ hf => Json.noConfusion hf, fun _ => rfl, rfl⟩
  | arr xs => exact ⟨.undefined, rfl, fun _ hf => Json.noConfusion hf, fun _ => rfl, rfl⟩

/-- An instance of the preceding theorem: status 500 with a JSON error body. -/
theorem sendMessageSettle_paths_witness :
    ∃ reply, Json.get "reply" (.obj [("detail", .str "Internal Server Error")]) = some reply ∧
      sendMessageSettle doSendCb
          (.responded 500 (some (.obj [("detail", .str "Internal Server Error")])))
          (run (start "42") [.input "hours?", .enter]) =
        doSendCb none reply
          { run (start "42") [.input "hours?", .enter] with
            history := (run (start "42") [.input "hours?", .enter]).history ++
              [⟨.assistant, reply⟩] } :=
  have h := (sendMessageSettle_paths doSendCb
    (run (start "42") [.input "hours?", .enter])).2.2.2 500
      (.obj [("detail", .str "Internal Server Error")]) (by intro h; cases h)
  ⟨h.choose, h.choose_spec.1, h.choose_spec.2.2.2⟩

/-- C9: when the fetch of a config request fails (it rejects, or the body does
not parse), the promise chain of `loadConfig` stores the fixed default and
calls the continuation once, with no error to report.  With the continuation
of `createWidget` the header then reads "Us", the log and the message list are
untouched, and opening the still empty, closed panel shows the default
greeting as its only message. -/
theorem loadConfig_failure (s : State) (id : Nat) (b : String) (o : Outcome)
    (hmem : id ∈ s.inflight) (hreq : s.requests[id]? = some (.config b))
    (ho : o = .rejected ∨ ∃ status, o = .responded status none)
    (hclosed : s.isOpen = false) (hempty : s.messages = []) :
    (∀ (cb : State → State) (t : State), loadConfigSettle cb o t =
        cb { t with
          config := .obj [("name", .str "Us"),
            ("greeting_message", .str "Hi! How can I help you today?")]
          isLoaded := true }) ∧
      (step s (.settle id o)).config =
        .obj [("name", .str "Us"), ("greeting_message", .str "Hi! How can I help you today?")] ∧
      (step s (.settle id o)).headerText = .str "Us" ∧
      (step s (.settle id o)).history = s.history ∧
      (step s (.settle id o)).messages = [] ∧
      (step (step s (.settle id o)) .click).isOpen = true ∧
      (step (step s (.settle id o)) .click).hidden = false ∧
      (step (step s (.settle id o)) .click).messages =
        [.msg (.json (.str "Hi! How can I help you today?")) false] := by
  have hs : step s (.settle id o) =
      { s with config := defaultConfig, isLoaded := true, headerText := .str "Us",
               inflight := s.inflight.erase id } := by
    simp only [step]
    rw [settle_config s id o b hmem hreq]
    rcases ho with rfl | ⟨st, rfl⟩ <;> rfl
  refine ⟨?_, ?_⟩
  · intro cb t
    rcases ho with rfl | ⟨st, rfl⟩ <;> rfl
  · rw [hs]
    simp [step, btnOnclick, showGreeting, addMsg, greetingText, hclosed, hempty, defaultConfig,
      defaultGreeting, Json.truthy, Json.get, JsVal.truthy, List.lookup]

/-- An instance of the preceding theorem: the config fetch of a fresh session
rejects. -/
theorem loadConfig_failure_witness :
    0 ∈ (start "42").inflight ∧ (start "42").requests[0]? = some (.config "42") ∧
      (start "42").isOpen = false ∧ (start "42").messages = [] ∧
      (step (start "42") (.settle 0 .rejected)).headerText = .str "Us" ∧
      (step (step (start "42") (.settle 0 .rejected)) .click).messages =
        [.msg (.json (.str "Hi! How can I help you today?")) false] :=
  have h := loadConfig_failure (start "42") 0 "42" .rejected (by decide) rfl (Or.inl rfl) rfl rfl
  ⟨by decide, rfl, rfl, rfl, h.2.2.1, h.2.2.2.2.2.2.2⟩

/-- C10: nothing orders concurrent sends.  When two texts with non-empty
trimmed forms `m1`, `m2` are submitted in that order from a state with log `L`
before either exchange completes, the second request carries
`L ++ [user m1, user m2]`; and when the reply `r2` to the second request
arrives before the reply `r1` to the first, the log ends up as
`L ++ [user m1, user m2, assistant r2, assistant r1]`. -/
theorem concurrent_sends (s : State) (t1 t2 r1 r2 : String) (st1 st2 : Nat)
    (h1 : jsTrim t1 ≠ "") (h2 : jsTrim t2 ≠ "") :
    (run s [.input t1, .enter, .input t2, .enter]).requests =
        s.requests ++
          [.message s.businessId (jsTrim t1) (s.history ++ [⟨.user, .json (.str (jsTrim t1))⟩]),
            .message s.businessId (jsTrim t2)
              (s.history ++ [⟨.user, .json (.str (jsTrim t1))⟩,
                ⟨.user, .json (.str (jsTrim t2))⟩])] ∧
      (run s [.input t1, .enter, .input t2, .enter,
          .settle (s.requests.length + 1) (.responded st2 (some (.obj [("reply", .str r2)]))),
          .settle s.requests.length (.responded st1 (some (.obj [("reply", .str r1)])))]).history =
        s.history ++ [⟨.user, .json (.str (jsTrim t1))⟩, ⟨.user, .json (.str (jsTrim t2))⟩,
          ⟨.assistant, .json (.str r2)⟩, ⟨.assistant, .json (.str r1)⟩] := by
  have e1 : jsTrim ({ s with inputValue := t1 } : State).inputValue ≠ "" := h1
  have hS : run s [.input t1, .enter, .input t2, .enter] =
      { s with
        inputValue := ""
        messages := s.messages ++ [.msg (.json (.str (jsTrim t1))) true, .typing,
          .msg (.json (.str (jsTrim t2))) true, .typing]
        history := s.history ++ [⟨.user, .json (.str (jsTrim t1))⟩,
          ⟨.user, .json (.str (jsTrim t2))⟩]
        requests := s.requests ++
          [.message s.businessId (jsTrim t1) (s.history ++ [⟨.user, .json (.str (jsTrim t1))⟩]),
            .message s.businessId (jsTrim t2)
              (s.history ++ [⟨.user, .json (.str (jsTrim t1))⟩,
                ⟨.user, .json (.str (jsTrim t2))⟩])]
        inflight := s.inflight ++ [s.requests.length, s.requests.length + 1] } := by
    simp only [run, List.foldl, step]
    rw [doSend_accept _ h2, doSend_accept _ e1]
    simp
  refine ⟨by rw [hS], ?_⟩
  rw [show [Event.input t1, .enter, .input t2, .enter,
          .settle (s.requests.length + 1) (.responded st2 (some (.obj [("reply", .str r2)]))),
          .settle s.requests.length (.responded st1 (some (.obj [("reply", .str r1)])))] =
        [Event.input t1, .enter, .input t2, .enter] ++
          [.settle (s.requests.length + 1) (.responded st2 (some (.obj [("reply", .str r2)]))),
            .settle s.requests.length (.responded st1 (some (.obj [("reply", .str r1)])))]
      from rfl, run_append, hS]
  simp only [run, List.foldl, step]
  rw [settle_message _ (s.requests.length + 1) _ s.businessId (jsTrim t2)
    (s.history ++ [⟨.user, .json (.str (jsTrim t1))⟩, ⟨.user, .json (.str (jsTrim t2))⟩])
    (by simp) (getElem?_append_two _ _ _)]
  rw [settle_message _ s.requests.length _ s.businessId (jsTrim t1)
    (s.history ++ [⟨.user, .json (.str (jsTrim t1))⟩])]
  · simp [sendMessageSettle, sendMessageThen, Json.get, List.lookup, doSendCb, addMsg,
      removeTyping]
  · have hne : s.requests.length ≠ s.requests.length + 1 := by omega
    simp [sendMessageSettle, sendMessageThen, Json.get, List.lookup, doSendCb, addMsg,
      removeTyping, List.mem_erase_of_ne hne]
  · exact getElem?_append_one _ _ _

/-- An instance of the preceding theorem: two questions, answered in reverse order. -/
theorem concurrent_sends_witness :
    jsTrim "hours?" ≠ "" ∧ jsTrim "where?" ≠ "" ∧
      (run (start "42") [.input "hours?", .enter, .input "where?", .enter,
          .settle 2 (.responded 200 (some (.obj [("reply", .str "Main St")]))),
          .settle 1 (.responded 200 (some (.obj [("reply", .str "9-5")])))]).history =
        [⟨.user, .json (.str "hours?")⟩, ⟨.user, .json (.str "where?")⟩,
          ⟨.assistant, .json (.str "Main St")⟩, ⟨.assistant, .json (.str "9-5")⟩] :=
  ⟨by decide, by decide,
    (concurrent_sends (start "42") "hours?" "where?" "9-5" "Main St" 200 200
      (by decide) (by decide)).2⟩

/-! ## Executions from the start of the page session -/

/-- The chain of `loadConfig` with the continuation of `createWidget` writes
`config`, `isLoaded` and the header text at most. -/
theorem loadConfigSettle_frame (o : Outcome) (s : State) :
    ∃ c h, loadConfigSettle headerCb o s = { s with config := c, isLoaded := true, headerText := h } := by
  cases o with
  | rejected =>
    obtain ⟨h, hh⟩ := headerCb_frame { s with config := defaultConfig, isLoaded := true }
    exact ⟨defaultConfig, h, by simp [loadConfigSettle, loadConfigCatch, hh]⟩
  | responded st body =>
    cases body with
    | none =>
      obtain ⟨h, hh⟩ := headerCb_frame { s with config := defaultConfig, isLoaded := true }
      exact ⟨defaultConfig, h, by simp [loadConfigSettle, loadConfigCatch, hh]⟩
    | some data =>
      obtain ⟨h, hh⟩ := headerCb_frame { s with config := data, isLoaded := true }
      exact ⟨data, h, by simp [loadConfigSettle, loadConfigThen, hh]⟩

/-- One event leaves the list of requests alone or appends one request to it;
a message request is appended by Enter only, with the log as it is after the
user turn has been pushed. -/
theorem step_requests (s : State) (e : Event) :
    (step s e).requests = s.requests ∨
      (∃ b, (step s e).requests = s.requests ++ [.config b]) ∨
      (e = .enter ∧ (step s e).requests = s.requests ++
        [.message s.businessId (jsTrim s.inputValue)
          (s.history ++ [⟨.user, .json (.str (jsTrim s.inputValue))⟩])]) := by
  cases e with
  | click =>
    obtain ⟨M, h⟩ := btnOnclick_frame s
    left; simp [step, h]
  | input v => left; rfl
  | enter =>
    by_cases h : jsTrim s.inputValue = ""
    · left; simp [step, doSend, h]
    · right; right; exact ⟨rfl, by simp [step, doSend_accept _ h]⟩
  | loadConfig =>
    simp only [step, loadConfig]
    split
    · obtain ⟨h, hh⟩ := headerCb_frame s
      left; simp [hh]
    · right; left; exact ⟨s.businessId, rfl⟩
  | settle id o =>
    simp only [step, settle]
    split
    · split
      · obtain ⟨c, h, hh⟩ := loadConfigSettle_frame o { s with inflight := s.inflight.erase id }
        left; simp [hh]
      · obtain ⟨H, M, hh⟩ := sendMessageSettle_frame o { s with inflight := s.inflight.erase id }
        left; simp [hh]
      · left; rfl
    · left; rfl

/-- The session starts with the config request of `createWidget`. -/
theorem start_requests (bid : String) : (start bid).requests = [.config bid] := rfl

/-- C3, refuted as stated: the first message request of a session carries a
history that differs from the log as it was before the user turn was pushed
(the empty log), and the new message is an element of it. -/
theorem first_request_history_has_message :
    (step (run (start "42") [.input "hours?"]) .enter).requests[1]? =
        some (.message "42" "hours?" [⟨.user, .json (.str "hours?")⟩]) ∧
      (run (start "42") [.input "hours?"]).history = [] ∧
      ([⟨.user, .json (.str "hours?")⟩] : List Turn) ≠
        (run (start "42") [.input "hours?"]).history ∧
      (⟨.user, .json (.str "hours?")⟩ : Turn) ∈
        ([⟨.user, .json (.str "hours?")⟩] : List Turn) :=
  ⟨rfl, rfl, List.cons_ne_nil _ _, List.mem_singleton.mpr rfl⟩

/-- C3, amended: in every execution from the start of the session, the request
with index `N`, if it is a message request, was issued by a press of Enter; its
`message` is the trimmed input at that moment and its `conversation_history`
is the log as it was just before that user turn was pushed, followed by that
user turn.  The new message travels both as `message` and as the last element
of `conversation_history`. -/
theorem request_history_snapshot (bid : String) (es : List Event) (N : Nat) (b m : String)
    (h : List Turn) (hreq : (run (start bid) es).requests[N]? = some (.message b m h)) :
    ∃ es1 es2, es = es1 ++ .enter :: es2 ∧
      (run (start bid) es1).requests.length = N ∧
      m = jsTrim (run (start bid) es1).inputValue ∧
      h = (run (start bid) es1).history ++ [⟨.user, .json (.str m)⟩] ∧
      h.getLast? = some ⟨.user, .json (.str m)⟩ := by
  induction es using List.reverseRecOn with
  | nil =>
    rw [show run (start bid) [] = start bid from rfl, start_requests] at hreq
    cases N with
    | zero => simp at hreq
    | succ k => simp at hreq
  | append_singleton es e ih =>
    have hrun : run (start bid) (es ++ [e]) = step (run (start bid) es) e := by
      simp [run, List.foldl_append]
    rw [hrun] at hreq
    have old : (run (start bid) es).requests[N]? = some (.message b m h) →
        ∃ es1 es2, es ++ [e] = es1 ++ .enter :: es2 ∧
          (run (start bid) es1).requests.length = N ∧
          m = jsTrim (run (start bid) es1).inputValue ∧
          h = (run (start bid) es1).history ++ [⟨.user, .json (.str m)⟩] ∧
          h.getLast? = some ⟨.user, .json (.str m)⟩ := by
      intro hr
      obtain ⟨es1, es2, he, hrest⟩ := ih hr
      exact ⟨es1, es2 ++ [e], by simp [he], hrest⟩
    rcases step_requests (run (start bid) es) e with hs | ⟨b2, hs⟩ | ⟨he, hs⟩
    · rw [hs] at hreq
      exact old hreq
    · rw [hs] at hreq
      by_cases hlt : N < (run (start bid) es).requests.length
      · rw [List.getElem?_append_left hlt] at hreq
        exact old hreq
      · rw [List.getElem?_append_right (by omega)] at hreq
        cases hk : N - (run (start bid) es).requests.length with
        | zero => simp [hk] at hreq
        | succ k => simp [hk] at hreq
    · rw [hs] at hreq
      by_cases hlt : N < (run (start bid) es).requests.length
      · rw [List.getElem?_append_left hlt] at hreq
        exact old hreq
      · rw [List.getElem?_append_right (by omega)] at hreq
        cases hk : N - (run (start bid) es).requests.length with
        | zero =>
          simp only [hk, List.getElem?_cons_zero, Option.some.injEq, Request.message.injEq] at hreq
          obtain ⟨_, hm, hh⟩ := hreq
          refine ⟨es, [], by simp [he], by omega, hm.symm, ?_, ?_⟩
          · rw [← hh, hm]
          · rw [← hh, hm]; simp
        | succ k => simp [hk] at hreq

/-- An instance of the preceding theorem: the second message request of a
session whose first exchange failed. -/
theorem request_history_snapshot_witness :
    (run (start "42")
        [.input "hours?", .enter, .settle 1 .rejected, .input "open?", .enter]).requests[2]? =
        some (.message "42" "open?"
          [⟨.user, .json (.str "hours?")⟩, ⟨.user, .json (.str "open?")⟩]) ∧
      ∃ es1 es2, [Event.input "hours?", .enter, .settle 1 .rejected, .input "open?", .enter] =
          es1 ++ .enter :: es2 ∧
        (run (start "42") es1).requests.length = 2 ∧
        "open?" = jsTrim (run (start "42") es1).inputValue ∧
        [⟨.user, .json (.str "hours?")⟩, ⟨.user, .json (.str "open?")⟩] =
          (run (start "42") es1).history ++ [⟨.user, .json (.str "open?")⟩] ∧
        List.getLast? [(⟨.user, .json (.str "hours?")⟩ : Turn), ⟨.user, .json (.str "open?")⟩] =
          some ⟨.user, .json (.str "open?")⟩ :=
  ⟨rfl, request_history_snapshot "42"
    [.input "hours?", .enter, .settle 1 .rejected, .input "open?", .enter] 2 "42" "open?"
    [⟨.user, .json (.str "hours?")⟩, ⟨.user, .json (.str "open?")⟩] rfl⟩

/-! ## Memoisation of the config -/

/-- The count of config requests depends on the list of requests only. -/
theorem configRequests_eq (s t : State) (h : t.requests = s.requests) :
    configRequests t = configRequests s := by
  simp [configRequests, h]

/-- A config request found after a message request was appended was there
before. -/
theorem getElem?_append_message (rs : List Request) (b m : String) (h : List Turn) (id : Nat)
    (c : String) (hc : (rs ++ [Request.message b m h])[id]? = some (.config c)) :
    rs[id]? = some (.config c) := by
  by_cases hlt : id < rs.length
  · rwa [List.getElem?_append_left hlt] at hc
  · rw [List.getElem?_append_right (by omega)] at hc
    cases hk : id - rs.length with
    | zero => simp [hk] at hc
    | succ k => simp [hk] at hc

/-- With a truthy `config` and no config fetch in flight, one event keeps
`config`, issues no config request and leaves no config fetch in flight. -/
theorem step_memo (s : State) (e : Event) (hcfg : s.config.truthy = true)
    (hno : ∀ id ∈ s.inflight, ∀ b, s.requests[id]? ≠ some (.config b)) :
    (step s e).config = s.config ∧ configRequests (step s e) = configRequests s ∧
      ∀ id ∈ (step s e).inflight, ∀ b, (step s e).requests[id]? ≠ some (.config b) := by
  cases e with
  | click =>
    obtain ⟨M, h⟩ := btnOnclick_frame s
    rw [show step s .click = btnOnclick s from rfl, h]
    exact ⟨rfl, rfl, hno⟩
  | input v => exact ⟨rfl, rfl, hno⟩
  | enter =>
    by_cases h : jsTrim s.inputValue = ""
    · have : step s .enter = s := by simp [step, doSend, h]
      rw [this]; exact ⟨rfl, rfl, hno⟩
    · rw [show step s .enter = doSend s from rfl, doSend_accept _ h]
      refine ⟨rfl, by simp [configRequests, List.filter_append], ?_⟩
      intro id hid b hb
      have hb2 := getElem?_append_message _ _ _ _ _ _ hb
      simp only [List.mem_append, List.mem_singleton] at hid
      rcases hid with hid | hid
      · exact hno id hid b hb2
      · rw [hid] at hb2; simp at hb2
  | loadConfig =>
    obtain ⟨h, hh⟩ := headerCb_frame s
    have : step s .loadConfig = headerCb s := by simp [step, loadConfig, hcfg]
    rw [this, hh]
    exact ⟨rfl, rfl, hno⟩
  | settle id o =>
    rw [show step s (.settle id o) = settle id o s from rfl]
    by_cases hmem : id ∈ s.inflight
    · cases hr : s.requests[id]? with
      | none =>
        have : settle id o s = s := by simp [settle, hmem, hr]
        rw [this]; exact ⟨rfl, rfl, hno⟩
      | some r =>
        cases r with
        | config b => exact absurd hr (hno id hmem b)
        | message b m h =>
          obtain ⟨H, M, hh⟩ := sendMessageSettle_frame o { s with inflight := s.inflight.erase id }
          rw [settle_message s id o b m h hmem hr, hh]
          exact ⟨rfl, rfl, fun i hi => hno i (List.mem_of_mem_erase hi)⟩
    · have : settle id o s = s := by simp [settle, hmem]
      rw [this]; exact ⟨rfl, rfl, hno⟩

/-- C6, refuted as stated: a second invocation of `loadConfig` made while the
fetch issued by `createWidget` is still outstanding issues a second config
request. -/
theorem second_loadConfig_fetches_again :
    configRequests (start "42") = 1 ∧ (start "42").inflight = [0] ∧
      configRequests (run (start "42") [.loadConfig]) = 2 ∧
      (run (start "42") [.loadConfig]).requests = [.config "42", .config "42"] :=
  ⟨rfl, rfl, rfl, rfl⟩

/-- C6, amended: an invocation of `loadConfig` issues a config request exactly
when `config` is still falsy at that moment, whether or not a fetch is
outstanding.  Once `config` is truthy and no config fetch is outstanding, no
sequence of invocations, completions and user events issues another config
request, and `config` keeps its value. -/
theorem loadConfig_memo (s : State) (es : List Event) (hcfg : s.config.truthy = true)
    (hno : ∀ id ∈ s.inflight, ∀ b, s.requests[id]? ≠ some (.config b)) :
    configRequests (run s es) = configRequests s ∧ (run s es).config = s.config ∧
      ∀ t : State, configRequests (step t .loadConfig) =
        configRequests t + (if t.config.truthy then 0 else 1) := by
  have key : ∀ (es : List Event) (s : State), s.config.truthy = true →
      (∀ id ∈ s.inflight, ∀ b, s.requests[id]? ≠ some (.config b)) →
      configRequests (run s es) = configRequests s ∧ (run s es).config = s.config := by
    intro es
    induction es with
    | nil => intro s _ _; exact ⟨rfl, rfl⟩
    | cons e es ih =>
      intro s hc hn
      obtain ⟨h1, h2, h3⟩ := step_memo s e hc hn
      obtain ⟨h4, h5⟩ := ih (step s e) (by rw [h1]; exact hc) h3
      have hrun : run s (e :: es) = run (step s e) es := rfl
      rw [hrun, h4, h5, h1, h2]
      exact ⟨rfl, rfl⟩
  refine ⟨(key es s hcfg hno).1, (key es s hcfg hno).2, ?_⟩
  intro t
  simp only [step, loadConfig]
  split
  · obtain ⟨h, hh⟩ := headerCb_frame t
    simp [hh, configRequests]
  · simp [issue, configRequests, List.filter_append]

/-- An instance of the preceding theorem: after the default was stored, further
invocations fetch nothing; before, they do. -/
theorem loadConfig_memo_witness :
    (run (start "42") [.settle 0 .rejected]).config.truthy = true ∧
      (run (start "42") [.settle 0 .rejected]).inflight = [] ∧
      configRequests (run (run (start "42") [.settle 0 .rejected])
        [.loadConfig, .click, .loadConfig]) =
        configRequests (run (start "42") [.settle 0 .rejected]) ∧
      configRequests (run (start "42") [.settle 0 .rejected]) = 1 ∧
      configRequests (step (start "42") .loadConfig) = configRequests (start "42") + 1 :=
  have h := loadConfig_memo (run (start "42") [.settle 0 .rejected])
    [.loadConfig, .click, .loadConfig] rfl (fun id hid => absurd hid (List.not_mem_nil id))
  ⟨rfl, rfl, h.1, rfl, h.2.2 (start "42")⟩

/-! ## The greeting -/

/-- A message request found after a config request was appended was there
before. -/
theorem getElem?_append_config (rs : List Request) (c : String) (id : Nat)
    (b m : String) (h : List Turn) (hc : (rs ++ [Request.config c])[id]? = some (.message b m h)) :
    rs[id]? = some (.message b m h) := by
  by_cases hlt : id < rs.length
  · rwa [List.getElem?_append_left hlt] at hc
  · rw [List.getElem?_append_right (by omega)] at hc
    cases hk : id - rs.length with
    | zero => simp [hk] at hc
    | succ k => simp [hk] at hc

/-- While no message request has been issued, an event other than Enter issues
none, keeps the log, and keeps the message list unless it is a click on an
empty list. -/
theorem step_quiet (s : State) (e : Event) (he : e ≠ .enter)
    (hnm : ∀ (id : Nat) (b m : String) (h : List Turn), s.requests[id]? ≠ some (Request.message b m h)) :
    (∀ (id : Nat) (b m : String) (h : List Turn),
        (step s e).requests[id]? ≠ some (Request.message b m h)) ∧
      (step s e).history = s.history ∧ (step s e).businessId = s.businessId ∧
      ((e ≠ .click ∨ s.messages ≠ []) → (step s e).messages = s.messages) ∧
      (e ≠ .click → (step s e).isOpen = s.isOpen) := by
  cases e with
  | click =>
    obtain ⟨M, h⟩ := btnOnclick_frame s
    refine ⟨?_, ?_, ?_, ?_, fun h => absurd rfl h⟩
    · rw [show step s .click = btnOnclick s from rfl, h]; exact hnm
    · rw [show step s .click = btnOnclick s from rfl, h]
    · rw [show step s .click = btnOnclick s from rfl, h]
    · intro hm
      rcases hm with hm | hm
      · exact absurd rfl hm
      · have hlen : (s.messages.length == 0) = false := by
          cases hs : s.messages with
          | nil => exact absurd hs hm
          | cons a l => rfl
        simp [step, btnOnclick, hlen]
  | input v => exact ⟨hnm, rfl, rfl, fun _ => rfl, fun _ => rfl⟩
  | enter => exact absurd rfl he
  | loadConfig =>
    rw [show step s .loadConfig = loadConfig headerCb s from rfl]
    unfold loadConfig
    split
    · obtain ⟨h, hh⟩ := headerCb_frame s
      rw [hh]
      exact ⟨hnm, rfl, rfl, fun _ => rfl, fun _ => rfl⟩
    · refine ⟨?_, rfl, rfl, fun _ => rfl, fun _ => rfl⟩
      intro id b m h hc
      exact hnm id b m h (getElem?_append_config _ _ _ _ _ _ hc)
  | settle id o =>
    rw [show step s (.settle id o) = settle id o s from rfl]
    by_cases hmem : id ∈ s.inflight
    · cases hr : s.requests[id]? with
      | none =>
        have : settle id o s = s := by simp [settle, hmem, hr]
        rw [this]; exact ⟨hnm, rfl, rfl, fun _ => rfl, fun _ => rfl⟩
      | some r =>
        cases r with
        | message b m h => exact absurd hr (hnm id b m h)
        | config b =>
          obtain ⟨c, h, hh⟩ := loadConfigSettle_frame o { s with inflight := s.inflight.erase id }
          rw [settle_config s id o b hmem hr, hh]
          exact ⟨hnm, rfl, rfl, fun _ => rfl, fun _ => rfl⟩
    · have : settle id o s = s := by simp [settle, hmem]
      rw [this]; exact ⟨hnm, rfl, rfl, fun _ => rfl, fun _ => rfl⟩

/-- The same along an execution without Enter. -/
theorem run_quiet (es : List Event) : ∀ (s : State), (∀ e ∈ es, e ≠ .enter) →
    (∀ (id : Nat) (b m : String) (h : List Turn), s.requests[id]? ≠ some (Request.message b m h)) →
    ((∀ e ∈ es, e ≠ .click) ∨ s.messages ≠ []) →
    (∀ (id : Nat) (b m : String) (h : List Turn),
        (run s es).requests[id]? ≠ some (Request.message b m h)) ∧
      (run s es).history = s.history ∧ (run s es).businessId = s.businessId ∧
      (run s es).messages = s.messages ∧
      ((∀ e ∈ es, e ≠ .click) → (run s es).isOpen = s.isOpen) := by
  induction es with
  | nil => intro s _ hnm _; exact ⟨hnm, rfl, rfl, rfl, fun _ => rfl⟩
  | cons e es ih =>
    intro s hes hnm hc
    have he : e ≠ .enter := hes e (List.mem_cons_self _ _)
    obtain ⟨h1, h2, h3, h4, h5⟩ := step_quiet s e he hnm
    have hm : (step s e).messages = s.messages := by
      apply h4
      rcases hc with hc | hc
      · exact Or.inl (hc e (List.mem_cons_self _ _))
      · exact Or.inr hc
    have hc2 : (∀ e ∈ es, e ≠ .click) ∨ (step s e).messages ≠ [] := by
      rcases hc with hc | hc
      · exact Or.inl (fun x hx => hc x (List.mem_cons_of_mem _ hx))
      · exact Or.inr (by rw [hm]; exact hc)
    obtain ⟨i1, i2, i3, i4, i5⟩ :=
      ih (step s e) (fun x hx => hes x (List.mem_cons_of_mem _ hx)) h1 hc2
    have hrun : run s (e :: es) = run (step s e) es := rfl
    rw [hrun]
    refine ⟨i1, by rw [i2, h2], by rw [i3, h3], by rw [i4, hm], ?_⟩
    intro hk
    rw [i5 (fun x hx => hk x (List.mem_cons_of_mem _ hx)), h5 (hk e (List.mem_cons_self _ _))]

/-- The session starts without message requests. -/
theorem start_no_message (bid : String) (id : Nat) (b m : String) (h : List Turn) :
    (start bid).requests[id]? ≠ some (.message b m h) := by
  rw [start_requests]
  cases id with
  | zero => simp
  | succ k => simp

/-- The config stored by the chain of `loadConfig`. -/
theorem loadConfigSettle_config (o : Outcome) (s : State) :
    (loadConfigSettle headerCb o s).config =
      (match o with
        | .responded _ (some data) => data
        | _ => defaultConfig) := by
  cases o with
  | rejected =>
    obtain ⟨h, hh⟩ := headerCb_frame { s with config := defaultConfig, isLoaded := true }
    simp [loadConfigSettle, loadConfigCatch, hh]
  | responded st body =>
    cases body with
    | none =>
      obtain ⟨h, hh⟩ := headerCb_frame { s with config := defaultConfig, isLoaded := true }
      simp [loadConfigSettle, loadConfigCatch, hh]
    | some data =>
      obtain ⟨h, hh⟩ := headerCb_frame { s with config := data, isLoaded := true }
      simp [loadConfigSettle, loadConfigThen, hh]

/-- A plain event keeps the stored config plain. -/
theorem step_plain (s : State) (e : Event) (hs : plainConfig s.config = true)
    (he : plainEvent e = true) : plainConfig (step s e).config = true := by
  cases e with
  | click =>
    obtain ⟨M, h⟩ := btnOnclick_frame s
    rw [show step s .click = btnOnclick s from rfl, h]; exact hs
  | input v => exact hs
  | enter =>
    by_cases h : jsTrim s.inputValue = ""
    · have : step s .enter = s := by simp [step, doSend, h]
      rw [this]; exact hs
    · rw [show step s .enter = doSend s from rfl, doSend_accept _ h]; exact hs
  | loadConfig =>
    rw [show step s .loadConfig = loadConfig headerCb s from rfl]
    unfold loadConfig
    split
    · obtain ⟨h, hh⟩ := headerCb_frame s
      rw [hh]; exact hs
    · exact hs
  | settle id o =>
    rw [show step s (.settle id o) = settle id o s from rfl]
    by_cases hmem : id ∈ s.inflight
    · cases hr : s.requests[id]? with
      | none =>
        have : settle id o s = s := by simp [settle, hmem, hr]
        rw [this]; exact hs
      | some r =>
        cases r with
        | message b m h =>
          obtain ⟨H, M, hh⟩ := sendMessageSettle_frame o { s with inflight := s.inflight.erase id }
          rw [settle_message s id o b m h hmem hr, hh]; exact hs
        | config b =>
          rw [settle_config s id o b hmem hr, loadConfigSettle_config]
          cases o with
          | rejected => rfl
          | responded st body =>
            cases body with
            | none => rfl
            | some data => exact he
    · have : settle id o s = s := by simp [settle, hmem]
      rw [this]; exact hs

/-- Plain events keep the stored config plain along an execution. -/
theorem run_plain (es : List Event) : ∀ (s : State), plainConfig s.config = true →
    (∀ e ∈ es, plainEvent e = true) → plainConfig (run s es).config = true := by
  induction es with
  | nil => intro s hs _; exact hs
  | cons e es ih =>
    intro s hs hes
    exact ih (step s e) (step_plain s e hs (hes e (List.mem_cons_self _ _)))
      (fun x hx => hes x (List.mem_cons_of_mem _ hx))

/-- The greeting chosen from a plain config is a primitive value. -/
theorem greetingText_plain (c : Json) (hc : plainConfig c = true) :
    ∃ j, greetingText c = .json j ∧ j.isPrimitive = true := by
  have hg : plainField "greeting_message" c = true := by
    simp only [plainConfig, Bool.and_eq_true] at hc
    exact hc.2
  unfold greetingText
  split
  · cases hget : c.get "greeting_message" with
    | none => exact ⟨_, rfl, rfl⟩
    | some g =>
      cases g with
      | undefined => exact ⟨.str defaultGreeting, by simp [JsVal.truthy], rfl⟩
      | json j =>
        simp only [plainField, hget] at hg
        by_cases ht : j.truthy = true
        · exact ⟨j, by simp [JsVal.truthy, ht], hg⟩
        · exact ⟨.str defaultGreeting, by simp [JsVal.truthy, ht], rfl⟩
  · exact ⟨_, rfl, rfl⟩

/-- C7: in every execution from the start of the session in which Enter is not
pressed (clicks on the launcher, edits of the input, invocations of
`loadConfig` and completions of the config fetch in any order) and in which
every config body delivered has a primitive or absent `name` and
`greeting_message`, the stored config stays of that kind, so every value
assigned to `textContent` is a primitive and the handlers run to completion;
the message list is empty until the first click; the first click opens the
panel and adds one bot message, the greeting chosen from the config as it is
at that moment (its `greeting_message` when that is a non-empty string, the
fixed default when the config is not loaded or has no or an empty greeting);
later events add nothing; the log stays empty throughout, and the first
request sent afterwards carries a history that consists of the user turn
alone. -/
theorem greeting_shown_once (bid : String) (pre post : List Event)
    (hpre : ∀ e ∈ pre, e ≠ .click ∧ e ≠ .enter ∧ plainEvent e = true)
    (hpost : ∀ e ∈ post, e ≠ .enter ∧ plainEvent e = true) :
    plainConfig (run (start bid) pre).config = true ∧
      plainConfig (run (start bid) (pre ++ .click :: post)).config = true ∧
      (∃ j, greetingText (run (start bid) pre).config = .json j ∧ j.isPrimitive = true) ∧
      (run (start bid) pre).messages = [] ∧ (run (start bid) pre).history = [] ∧
      (run (start bid) (pre ++ [.click])).isOpen = true ∧
      (run (start bid) (pre ++ .click :: post)).messages =
        [.msg (greetingText (run (start bid) pre).config) false] ∧
      (run (start bid) (pre ++ .click :: post)).history = [] ∧
      (∀ text, jsTrim text ≠ "" →
        (run (start bid) ((pre ++ .click :: post) ++ [.input text, .enter])).requests.getLast? =
          some (.message bid (jsTrim text) [⟨.user, .json (.str (jsTrim text))⟩])) ∧
      greetingText .null = .json (.str "Hi! How can I help you today?") ∧
      (∀ fields g, fields.lookup "greeting_message" = some (.str g) → g ≠ "" →
        greetingText (.obj fields) = .json (.str g)) ∧
      (∀ fields, fields.lookup "greeting_message" = none ∨
          fields.lookup "greeting_message" = some (.str "") →
        greetingText (.obj fields) = .json (.str "Hi! How can I help you today?")) := by
  have hplain : plainConfig (run (start bid) pre).config = true :=
    run_plain pre (start bid) rfl (fun e he => (hpre e he).2.2)
  have hplain2 : plainConfig (run (start bid) (pre ++ .click :: post)).config = true := by
    apply run_plain _ (start bid) rfl
    intro e he
    rcases List.mem_append.mp he with h | h
    · exact (hpre e h).2.2
    · rcases List.mem_cons.mp h with h | h
      · rw [h]; rfl
      · exact (hpost e h).2
  obtain ⟨p1, p2, p3, p4, p5⟩ := run_quiet pre (start bid) (fun e he => (hpre e he).2.1)
    (start_no_message bid) (Or.inl (fun e he => (hpre e he).1))
  have p5 := p5 (fun e he => (hpre e he).1)
  have hm0 : (run (start bid) pre).messages = [] := by rw [p4]; rfl
  have hh0 : (run (start bid) pre).history = [] := by rw [p2]; rfl
  have ho0 : (run (start bid) pre).isOpen = false := by rw [p5]; rfl
  have hb0 : (run (start bid) pre).businessId = bid := by rw [p3]; rfl
  have hclick : step (run (start bid) pre) .click =
      { run (start bid) pre with
        isOpen := true, hidden := false,
        messages := [.msg (greetingText (run (start bid) pre).config) false] } := by
    simp [step, btnOnclick, showGreeting, addMsg, hm0, ho0]
  obtain ⟨c1, c2, c3, c4, -⟩ := step_quiet (run (start bid) pre) .click (by intro h; cases h) p1
  obtain ⟨q1, q2, q3, q4, -⟩ := run_quiet post (step (run (start bid) pre) .click)
    (fun e he => (hpost e he).1) c1
    (Or.inr (by rw [hclick]; simp))
  have hrun : run (start bid) (pre ++ .click :: post) =
      run (step (run (start bid) pre) .click) post := by
    rw [run_append]; rfl
  refine ⟨hplain, hplain2, greetingText_plain _ hplain, hm0, hh0, ?_, ?_, ?_, ?_, ?_, ?_, ?_⟩
  · rw [run_append, show run (run (start bid) pre) [.click] =
      step (run (start bid) pre) .click from rfl, hclick]
  · rw [hrun, q4, hclick]
  · rw [hrun, q2, c2, hh0]
  · intro text ht
    rw [run_append, hrun, submit_request _ _ ht, q2, q3, c2, c3, hh0, hb0]
    rfl
  · simp [greetingText, Json.truthy, defaultGreeting]
  · intro fields g hl hg
    simp [greetingText, Json.truthy, Json.get, hl, JsVal.truthy, hg]
  · intro fields hl
    rcases hl with hl | hl <;>
      simp [greetingText, Json.truthy, Json.get, hl, JsVal.truthy, defaultGreeting]

/-- An instance of the preceding theorem: the config arrives, then three clicks. -/
theorem greeting_shown_once_witness :
    (∀ e ∈ [Event.settle 0 (.responded 200
        (some (.obj [("name", .str "Acme"), ("greeting_message", .str "Hey there")])))],
        e ≠ .click ∧ e ≠ .enter ∧ plainEvent e = true) ∧
      (∀ e ∈ [Event.click, Event.click], e ≠ .enter ∧ plainEvent e = true) ∧
      (run (start "42") ([.settle 0 (.responded 200
          (some (.obj [("name", .str "Acme"), ("greeting_message", .str "Hey there")])))] ++
        .click :: [.click, .click])).messages =
        [.msg (greetingText (run (start "42") [.settle 0 (.responded 200
          (some (.obj [("name", .str "Acme"),
            ("greeting_message", .str "Hey there")])))]).config) false] ∧
      greetingText (run (start "42") [.settle 0 (.responded 200
          (some (.obj [("name", .str "Acme"),
            ("greeting_message", .str "Hey there")])))]).config = .json (.str "Hey there") :=
  have hpre : ∀ e ∈ [Event.settle 0 (.responded 200
      (some (.obj [("name", .str "Acme"), ("greeting_message", .str "Hey there")])))],
      e ≠ .click ∧ e ≠ .enter ∧ plainEvent e = true := by
    intro e he; rw [List.mem_singleton] at he; subst he; exact ⟨nofun, nofun, rfl⟩
  have hpost : ∀ e ∈ [Event.click, Event.click], e ≠ .enter ∧ plainEvent e = true := by
    intro e he
    simp only [List.mem_cons, List.mem_singleton, List.not_mem_nil, or_false, or_self] at he
    subst he; exact ⟨nofun, rfl⟩
  ⟨hpre, hpost, (greeting_shown_once "42" _ _ hpre hpost).2.2.2.2.2.2.1, rfl⟩

end ChatWidget
